import Mathlib

/-!
Verification of the calendar-booking agent core (backend/agent.py and
backend/tools.py): a shallow embedding of the LangGraph agent state, the
decision node (call_model), the execution node (call_tool), the
continue/stop router (should_continue), the compiled graph as a small
step machine, and the two calendar tools, together with theorems about
the loop/termination contract, the execution-node result discipline and
the error handling of the tools.

External collaborators (the LLM, the Google Calendar service, the
langgraph ToolExecutor dispatcher) are parameters of the embedding:
the reasoning oracle is a function from the transcript to a reply, the
calendar service is a function returning either busy slots or an error,
and the registry dispatcher is modelled from the spec where its code is
not part of this repository.
-/

namespace CalendarAgent

/-- Role of a message in the transcript: HumanMessage, AIMessage or
ToolMessage in the source. -/
inductive Role
  | user
  | assistant
  | tool
deriving DecidableEq, Repr

/-- One entry of the additional_kwargs tool_calls list of an AIMessage:
an id, the function name and the function arguments (a JSON string in the
source; kept opaque here). -/
structure ToolCall where
  id : String
  name : String
  args : String
deriving DecidableEq, Repr

/-- A transcript message. The tool_calls field models the additional_kwargs
of the source: none means the key tool_calls is absent, some l means the
key is present and maps to the list l (which may be empty). tool_call_id
is the correlation id carried by a ToolMessage. -/
structure Message where
  role : Role
  content : String
  tool_calls : Option (List ToolCall)
  tool_call_id : Option String
deriving DecidableEq, Repr

/-- The AgentState TypedDict of backend/agent.py. The messages channel is
annotated with operator.add (append-merge); the remaining channels are
plain overwrite channels. -/
structure AgentState where
  messages : List Message
  summary : Option String
  start_time : Option String
  end_time : Option String
  attendees : Option (List String)
  calendar_check_result : Option String
  action_needed : Option String
deriving DecidableEq, Repr

/-- The dictionary returned by the call_tool node of backend/agent.py:
it carries exactly the keys messages and action_needed. -/
structure ToolUpdate where
  messages : List Message
  action_needed : Option String
deriving DecidableEq, Repr

/-- What the reasoning oracle (the bound LLM) returns for one invocation:
free text plus, optionally, the tool_calls list placed in
additional_kwargs. -/
structure OracleReply where
  content : String
  tool_calls : Option (List ToolCall)
deriving DecidableEq, Repr

/-- The AIMessage built from an oracle reply. -/
def mkAssistantMessage (r : OracleReply) : Message :=
  { role := .assistant, content := r.content, tool_calls := r.tool_calls,
    tool_call_id := none }

/-- should_continue of backend/agent.py: looks at the last message and
returns "continue" when the key tool_calls is present in its
additional_kwargs, else "end". Indexing an empty message list raises in
the source, modelled by none. -/
def should_continue (state : AgentState) : Option String :=
  state.messages.getLast?.map (fun last_message =>
    if last_message.tool_calls.isSome then "continue" else "end")

/-- Substring containment on character lists, modelling the Python
membership test pat in s. -/
def containsSub (pat : List Char) : List Char → Bool
  | [] => pat.isEmpty
  | c :: rest => pat.isPrefixOf (c :: rest) || containsSub pat rest

/-- Lowercasing as in the Python str.lower call, character by
character. -/
def pyLower (s : String) : List Char :=
  s.toList.map Char.toLower

/-- The test free in result.lower() from the call_tool node. -/
def hasFree (result : String) : Bool :=
  containsSub "free".toList (pyLower result)

/-- Simplified model of json.dumps for a string payload: quote-wrap,
escaping quotes and backslashes. The claims do not depend on the finer
encoding details of the JSON escaping. -/
def json_dumps (s : String) : String :=
  "\"" ++ String.join (s.toList.map (fun c =>
    if c = '\"' then "\\\"" else
    if c = '\\' then "\\\\" else String.singleton c)) ++ "\""

/-- The ToolMessage appended by call_tool for one tool call: content is
json.dumps of the tool result, tool_call_id is the id of the call. -/
def toolResultMsg (tex : ToolCall → String) (tc : ToolCall) : Message :=
  { role := .tool, content := json_dumps (tex tc), tool_calls := none,
    tool_call_id := some tc.id }

/-- The per-iteration state mutation of call_tool in backend/agent.py:
if the tool is check_availability, set calendar_check_result to the
result and action_needed to propose_slots when the lowercased result
contains free, else ask_for_new_time; if the tool is book_meeting, set
action_needed to confirm_booking. -/
def fold_tool_output (tool_name : String) (result : String)
    (state : AgentState) : AgentState :=
  if tool_name = "check_availability" then
    { state with
      calendar_check_result := some result,
      action_needed :=
        some (if hasFree result then "propose_slots" else "ask_for_new_time") }
  else if tool_name = "book_meeting" then
    { state with action_needed := some "confirm_booking" }
  else state

/-- call_tool of backend/agent.py. It reads the tool_calls list of the
last message (defaulting to the empty list when the key is absent),
executes each call through the executor tex, collects one ToolMessage per
call and mutates its local copy of the state, and returns the update
dictionary holding the collected messages and the final local
action_needed. Indexing an empty message list raises in the source,
modelled by none. -/
def call_tool (tex : ToolCall → String) (state : AgentState) :
    Option ToolUpdate :=
  state.messages.getLast?.map (fun last_message =>
    let tool_calls := last_message.tool_calls.getD []
    let r := tool_calls.foldl
      (fun (acc : List Message × AgentState) tool_call =>
        (acc.1 ++ [toolResultMsg tex tool_call],
         fold_tool_output tool_call.name (tex tool_call) acc.2))
      ([], state)
    { messages := r.1, action_needed := r.2.action_needed })

/-- LangGraph channel merge for the update returned by call_tool: the
messages channel is annotated with operator.add in AgentState, so the
returned messages are appended; action_needed is an overwrite channel;
channels absent from the returned dictionary keep their value. -/
def apply_tool_update (state : AgentState) (u : ToolUpdate) : AgentState :=
  { state with
    messages := state.messages ++ u.messages,
    action_needed := u.action_needed }

/-- LangGraph channel merge for the update returned by call_model, which
carries only the messages key with the single oracle response. -/
def apply_model_update (state : AgentState) (m : Message) : AgentState :=
  { state with messages := state.messages ++ [m] }

/-- Node of the compiled graph currently in control, following the state
machine of the spec: deciding is the call_model node, executing is the
call_tool node, done is END. -/
inductive NodeTag
  | deciding
  | executing
  | done
deriving DecidableEq, Repr

/-- A configuration of the compiled graph: the node about to run and the
current merged AgentState. -/
structure Config where
  node : NodeTag
  state : AgentState
deriving DecidableEq, Repr

/-- One transition of the compiled workflow of backend/agent.py, with the
oracle (the LLM behind call_model) and the tool executor as parameters.
In deciding, call_model appends the oracle reply and the conditional edge
routes on should_continue: continue goes to call_tool, end goes to END.
In executing, call_tool runs and its update is merged, then the
unconditional edge returns to call_model. The none branch of call_tool is
unreachable along runs (executing is only entered with a nonempty
transcript). END is absorbing. -/
def step (oracle : List Message → OracleReply) (tex : ToolCall → String)
    (c : Config) : Config :=
  match c.node with
  | .deciding =>
    let response := mkAssistantMessage (oracle c.state.messages)
    let s1 := apply_model_update c.state response
    if should_continue s1 = some "continue" then ⟨.executing, s1⟩
    else ⟨.done, s1⟩
  | .executing =>
    match call_tool tex c.state with
    | some u => ⟨.deciding, apply_tool_update c.state u⟩
    | none => ⟨.deciding, c.state⟩
  | .done => c

/-- Iterated transitions of the workflow. -/
def stepN (oracle : List Message → OracleReply) (tex : ToolCall → String) :
    Nat → Config → Config
  | 0, c => c
  | n + 1, c => stepN oracle tex n (step oracle tex c)

/-- Modelled from the spec: the Tool Registry dispatch performed by the
langgraph ToolExecutor (library code, not part of src/). An unknown
action name produces a failure-describing payload (the invalid tool
message) instead of raising; a known name runs the registered
implementation on the supplied arguments. -/
def tool_executor_invoke (registry : List (String × (String → String)))
    (tc : ToolCall) : String :=
  match registry.lookup tc.name with
  | some impl => impl tc.args
  | none =>
    tc.name ++ " is not a valid tool, try one of [" ++
      String.intercalate ", " (registry.map (fun p => p.1)) ++ "]."

/-- One busy interval as returned by the freebusy query of the Google
Calendar service in backend/tools.py. -/
structure BusySlot where
  start : String
  «end» : String
deriving DecidableEq, Repr

/-- check_calendar_availability of backend/tools.py. The interaction with
the Google Calendar collaborator (service construction, timezone lookup
and freebusy query for the given range) is the parameter svc: it yields
either the busy slot list of the response or an HttpError, which the
source catches and converts into an error-describing string. -/
def check_calendar_availability
    (svc : String → String → Except String (List BusySlot))
    (start_time end_time : String) : String :=
  match svc start_time end_time with
  | .error e => "An error occurred while checking availability: " ++ e
  | .ok busy_slots =>
    if busy_slots.isEmpty then
      "The calendar is free during this time."
    else
      "The calendar is busy during the following times: " ++
        String.intercalate ", "
          (busy_slots.map (fun slot =>
            "From " ++ slot.start ++ " to " ++ slot.«end»)) ++
        ". Please suggest a different time."

/-- Start or end field of the event body built in backend/tools.py. -/
structure EventTime where
  dateTime : String
  timeZone : String
deriving DecidableEq, Repr

/-- One reminder override of the event body. -/
structure Reminder where
  method : String
  minutes : Nat
deriving DecidableEq, Repr

/-- The event body built by create_google_calendar_event. -/
structure GEvent where
  summary : String
  description : String
  start : EventTime
  «end» : EventTime
  reminders_useDefault : Bool
  reminders_overrides : List Reminder
  attendees : Option (List String)
deriving DecidableEq, Repr

/-- The event dictionary constructed by create_google_calendar_event:
fixed Asia/Kolkata timezone, the two reminder overrides, and an attendees
key only when the attendees argument is truthy (neither None nor the
empty list). -/
def build_event (summary start_time end_time description : String)
    (attendees : Option (List String)) : GEvent :=
  let base : GEvent :=
    { summary := summary, description := description,
      start := ⟨start_time, "Asia/Kolkata"⟩,
      «end» := ⟨end_time, "Asia/Kolkata"⟩,
      reminders_useDefault := false,
      reminders_overrides := [⟨"email", 24 * 60⟩, ⟨"popup", 10⟩],
      attendees := none }
  match attendees with
  | some l => if l.isEmpty then base else { base with attendees := some l }
  | none => base

/-- create_google_calendar_event of backend/tools.py. The insert call on
the Google Calendar collaborator is the parameter ins: it yields either
the htmlLink of the created event or an HttpError, which the source
catches and converts into an error-describing string. -/
def create_google_calendar_event (ins : GEvent → Except String String)
    (summary start_time end_time : String) (description : String)
    (attendees : Option (List String)) : String :=
  match ins (build_event summary start_time end_time description attendees) with
  | .ok link => "Event created: " ++ link
  | .error e => "An error occurred while creating the event: " ++ e

/-- Position k of the transcript holds the result message answering the
request tc: it is a tool message whose correlation id is the id of tc. -/
def checkResult (ms : List Message) (k : Nat) (tc : ToolCall) : Bool :=
  match ms[k]? with
  | some r => decide (r.role = .tool) && decide (r.tool_call_id = some tc.id)
  | none => false

/-- The obligation of position i of the transcript: if it holds an
assistant message carrying a tool_calls list, then for each request j of
that list, position i + 1 + j holds its result message. -/
def msgObligation (ms : List Message) (i : Nat) : Bool :=
  match ms[i]? with
  | some m =>
    match m.role, m.tool_calls with
    | .assistant, some tcs =>
      (List.range tcs.length).all (fun j =>
        match tcs[j]? with
        | some tc => checkResult ms (i + 1 + j) tc
        | none => true)
    | _, _ => true
  | none => true

/-- Every assistant message of the transcript that carries requested
actions is immediately followed by exactly one result message per
request, correlated by id and in request order. -/
def isAnswered (ms : List Message) : Bool :=
  (List.range ms.length).all (fun i => msgObligation ms i)

/-- Propositional form of the obligation of position i. -/
def AnsweredAt (ms : List Message) (i : Nat) : Prop :=
  ∀ m, ms[i]? = some m → m.role = .assistant →
    ∀ tcs, m.tool_calls = some tcs →
      ∀ j tc, tcs[j]? = some tc →
        ∃ r, ms[i + 1 + j]? = some r ∧ r.role = .tool ∧
          r.tool_call_id = some tc.id

/-- No two adjacent messages of the transcript are both assistant
messages. -/
def noTwoAssistant : List Message → Bool
  | m1 :: m2 :: rest =>
    (!(decide (m1.role = .assistant) && decide (m2.role = .assistant))) &&
      noTwoAssistant (m2 :: rest)
  | _ => true

/-- Inductive invariant of the workflow for the answered-requests
property: at the decision node and at END the whole transcript is
answered; at the execution node the transcript is an answered prefix
followed by the pending assistant message whose requests are about to be
executed. -/
def cfgAnswered (c : Config) : Prop :=
  match c.node with
  | .executing =>
    ∃ pre a, c.state.messages = pre ++ [a] ∧ isAnswered pre = true ∧
      a.role = .assistant ∧ a.tool_calls.isSome
  | _ => isAnswered c.state.messages = true

/-- Inductive invariant of the workflow for the alternation property: the
transcript never holds two adjacent assistant messages; entering the
decision node the transcript does not end in an assistant message, and
entering the execution node it ends in the pending assistant message with
a nonempty tool_calls list. -/
def cfgNoAdj (c : Config) : Prop :=
  match c.node with
  | .deciding =>
    noTwoAssistant c.state.messages = true ∧
      ∀ l, c.state.messages.getLast? = some l → l.role ≠ .assistant
  | .executing =>
    noTwoAssistant c.state.messages = true ∧
      ∃ l tcs, c.state.messages.getLast? = some l ∧ l.role = .assistant ∧
        l.tool_calls = some tcs ∧ tcs ≠ []
  | .done => noTwoAssistant c.state.messages = true

/-- Oracle fixture: always replies with plain text and no tool_calls key. -/
def oracleSilent : List Message → OracleReply :=
  fun _ => ⟨"All done.", none⟩

/-- Oracle fixture: always replies with the tool_calls key present but
mapping to the empty list, as additional_kwargs may. -/
def oracleEmptyCalls : List Message → OracleReply :=
  fun _ => ⟨"", some []⟩

/-- Executor fixture returning a fixed uninteresting result. -/
def texOk : ToolCall → String :=
  fun _ => "ok"

/-- Executor fixture returning the busy-calendar result of
check_calendar_availability. -/
def texBusy : ToolCall → String :=
  fun _ =>
    "The calendar is busy during the following times: From " ++
      "2025-06-29T10:00:00+05:30 to 2025-06-29T11:00:00+05:30" ++
      ". Please suggest a different time."

/-- User message fixture, from the example turn in backend/agent.py. -/
def userMsg : Message :=
  ⟨.user, "Hey, I want to schedule a call for tomorrow morning.", none, none⟩

/-- Availability-check request fixture. -/
def checkCall : ToolCall :=
  ⟨"call_1", "check_availability", ""⟩

/-- Request fixture naming an action absent from the tool registry, from
Scenario C of the spec. -/
def unknownCall : ToolCall :=
  ⟨"call_2", "delete_event", ""⟩

/-- Booking request fixture. -/
def bookCall : ToolCall :=
  ⟨"call_3", "book_meeting", ""⟩

/-- Initial state fixture: one user message, all slots unset. -/
def stateInit : AgentState :=
  ⟨[userMsg], none, none, none, none, none, none⟩

/-- State fixture whose last message is an assistant message requesting
one availability check. -/
def stateCheck : AgentState :=
  ⟨[userMsg, ⟨.assistant, "", some [checkCall], none⟩],
    none, none, none, none, none, none⟩

/-- State fixture whose last message is an assistant message requesting an
unknown action and an availability check, in that order. -/
def stateMixed : AgentState :=
  ⟨[userMsg, ⟨.assistant, "", some [unknownCall, checkCall], none⟩],
    none, none, none, none, none, none⟩

/-- State fixture whose last message is an assistant message whose
additional_kwargs carries tool_calls mapping to the empty list. -/
def stateEmptyCalls : AgentState :=
  ⟨[userMsg, ⟨.assistant, "", some [], none⟩],
    none, none, none, none, none, none⟩

/-- Registry fixture with the three registered tools of backend/agent.py,
with their external effects stubbed to fixed replies. -/
def registryW : List (String × (String → String)) :=
  [("check_availability", fun _ => "The calendar is free during this time."),
   ("book_meeting", fun _ => "Event created: link"),
   ("get_current_datetime", fun _ => "2025-06-28T09:00:00")]

/-- Executor fixture returning the free-calendar result of
check_calendar_availability. -/
def texFree : ToolCall → String :=
  fun _ => "The calendar is free during this time."

/-- The update produced by call_tool on stateCheck under texBusy. -/
def updBusy : ToolUpdate :=
  ⟨[toolResultMsg texBusy checkCall], some "ask_for_new_time"⟩

/-- The update produced by call_tool on stateCheck under texOk. -/
def updOk : ToolUpdate :=
  ⟨[toolResultMsg texOk checkCall], some "ask_for_new_time"⟩

/-- Calendar service fixture that fails with an HttpError. -/
def svcErr : String → String → Except String (List BusySlot) :=
  fun _ _ => .error "HttpError 503"

/-- Calendar service fixture reporting a free range. -/
def svcFree : String → String → Except String (List BusySlot) :=
  fun _ _ => .ok []

/-- Calendar service fixture reporting one busy interval. -/
def svcBusy : String → String → Except String (List BusySlot) :=
  fun _ _ => .ok [⟨"2025-06-29T10:00:00+05:30", "2025-06-29T11:00:00+05:30"⟩]

/-- Event-insertion fixture that fails with an HttpError. -/
def insErr : GEvent → Except String String :=
  fun _ => .error "HttpError 403"

/-- Oracle fixture that always requests one availability check. -/
def oracleCheck : List Message → OracleReply :=
  fun _ => ⟨"", some [checkCall]⟩

theorem tool_loop_fst (tex : ToolCall → String) (tcs : List ToolCall) :
    ∀ (acc : List Message) (st : AgentState),
      (List.foldl
          (fun (acc : List Message × AgentState) tool_call =>
            (acc.1 ++ [toolResultMsg tex tool_call],
             fold_tool_output tool_call.name (tex tool_call) acc.2))
          (acc, st) tcs).1 = acc ++ tcs.map (toolResultMsg tex) := by
  induction tcs with
  | nil => intro acc st; simp
  | cons tc rest ih =>
    intro acc st
    simp only [List.foldl_cons, List.map_cons]
    rw [ih]
    simp

theorem tool_loop_snd (tex : ToolCall → String) (tcs : List ToolCall) :
    ∀ (acc : List Message) (st : AgentState),
      (List.foldl
          (fun (acc : List Message × AgentState) tool_call =>
            (acc.1 ++ [toolResultMsg tex tool_call],
             fold_tool_output tool_call.name (tex tool_call) acc.2))
          (acc, st) tcs).2 =
        List.foldl (fun s2 tc => fold_tool_output tc.name (tex tc) s2) st tcs := by
  induction tcs with
  | nil => intro acc st; simp
  | cons tc rest ih =>
    intro acc st
    simp only [List.foldl_cons]
    rw [ih]

/-- Closed form of the call_tool node on a state with a last message. -/
theorem call_tool_eq (tex : ToolCall → String) (s : AgentState)
    (last : Message) (hl : s.messages.getLast? = some last) :
    call_tool tex s = some
      { messages := (last.tool_calls.getD []).map (toolResultMsg tex),
        action_needed :=
          (List.foldl (fun s2 tc => fold_tool_output tc.name (tex tc) s2) s
            (last.tool_calls.getD [])).action_needed } := by
  unfold call_tool
  rw [hl]
  simp only [Option.map_some']
  rw [tool_loop_fst, tool_loop_snd]
  simp

theorem should_continue_after_model (st : AgentState) (m : Message) :
    should_continue (apply_model_update st m) =
      some (if m.tool_calls.isSome then "continue" else "end") := by
  simp [should_continue, apply_model_update, List.getLast?_concat]

/-- Closed form of one transition from the decision node. -/
theorem step_deciding (oracle : List Message → OracleReply)
    (tex : ToolCall → String) (st : AgentState) :
    step oracle tex ⟨.deciding, st⟩ =
      if (oracle st.messages).tool_calls.isSome then
        ⟨.executing,
          apply_model_update st (mkAssistantMessage (oracle st.messages))⟩
      else
        ⟨.done,
          apply_model_update st (mkAssistantMessage (oracle st.messages))⟩ := by
  show (if should_continue
      (apply_model_update st (mkAssistantMessage (oracle st.messages)))
        = some "continue" then _ else _) = _
  rw [should_continue_after_model]
  by_cases h : (oracle st.messages).tool_calls.isSome
  · simp [mkAssistantMessage, h]
  · simp only [mkAssistantMessage] at h ⊢
    simp [h, show ("end" : String) ≠ "continue" from by decide]

/-- Closed form of one transition from the execution node. -/
theorem step_executing (oracle : List Message → OracleReply)
    (tex : ToolCall → String) (st : AgentState) (last : Message)
    (hl : st.messages.getLast? = some last) :
    step oracle tex ⟨.executing, st⟩ =
      ⟨.deciding, apply_tool_update st
        { messages := (last.tool_calls.getD []).map (toolResultMsg tex),
          action_needed :=
            (List.foldl (fun s2 tc => fold_tool_output tc.name (tex tc) s2) st
              (last.tool_calls.getD [])).action_needed }⟩ := by
  show (match call_tool tex st with
    | some u => (⟨.deciding, apply_tool_update st u⟩ : Config)
    | none => ⟨.deciding, st⟩) = _
  rw [call_tool_eq tex st last hl]

/-- C1 (amended): from the decision node, the produced assistant message
is always appended, and the loop halts exactly when that message carries
no tool_calls key in its additional_kwargs; when the key is present (even
mapping to an empty list) control passes to the execution node; and
reaching END is possible only from the decision node with a key-less
reply. The claim as frozen ties halting to emptiness of the requested
actions; the code ties it to absence of the key. -/
theorem decide_step_halts_iff_key_absent
    (oracle : List Message → OracleReply) (tex : ToolCall → String)
    (st : AgentState) :
    (step oracle tex ⟨.deciding, st⟩).state.messages
        = st.messages ++ [mkAssistantMessage (oracle st.messages)] ∧
    ((step oracle tex ⟨.deciding, st⟩).node = .done ↔
        (oracle st.messages).tool_calls = none) ∧
    ((step oracle tex ⟨.deciding, st⟩).node = .executing ↔
        (oracle st.messages).tool_calls.isSome) ∧
    (∀ c : Config, (step oracle tex c).node = .done →
        c.node = .done ∨
          (c.node = .deciding ∧ (oracle c.state.messages).tool_calls = none)) := by
  refine ⟨?_, ?_, ?_, ?_⟩
  · rw [step_deciding]
    by_cases h : (oracle st.messages).tool_calls.isSome <;>
      simp [h, apply_model_update]
  · rw [step_deciding]
    by_cases h : (oracle st.messages).tool_calls.isSome
    · rw [Option.isSome_iff_ne_none] at h
      simp [Option.isSome_iff_ne_none, h]
    · rw [Option.not_isSome_iff_eq_none] at h
      simp [h]
  · rw [step_deciding]
    by_cases h : (oracle st.messages).tool_calls.isSome
    · simp [h]
    · rw [Option.not_isSome_iff_eq_none] at h
      simp [h]
  · intro c hc
    match c with
    | ⟨.deciding, st2⟩ =>
      rw [step_deciding] at hc
      by_cases h : (oracle st2.messages).tool_calls.isSome
      · simp [h] at hc
      · rw [Option.not_isSome_iff_eq_none] at h
        exact Or.inr ⟨rfl, h⟩
    | ⟨.executing, st2⟩ =>
      cases hct : call_tool tex st2 <;> simp [step, hct] at hc
    | ⟨.done, st2⟩ => exact Or.inl rfl

/-- C1 counterexample: with an oracle whose reply carries the tool_calls
key mapping to the empty list, the produced assistant message has an
empty requested-actions sequence, yet the decision step does not halt: it
hands control to the execution node. -/
theorem empty_tool_calls_list_does_not_halt :
    (mkAssistantMessage (oracleEmptyCalls stateInit.messages)).tool_calls
        = some [] ∧
    (step oracleEmptyCalls texOk ⟨.deciding, stateInit⟩).node = .executing ∧
    (step oracleEmptyCalls texOk ⟨.deciding, stateInit⟩).node ≠ .done := by
  exact ⟨rfl, rfl, by decide⟩

/-- Witness for the amended C1 theorem at a concrete silent oracle. -/
theorem decide_step_halts_iff_key_absent_witness :
    (step oracleSilent texOk ⟨.deciding, stateInit⟩).state.messages
        = stateInit.messages
            ++ [mkAssistantMessage (oracleSilent stateInit.messages)] ∧
    (step oracleSilent texOk ⟨.deciding, stateInit⟩).node = .done :=
  ⟨(decide_step_halts_iff_key_absent oracleSilent texOk stateInit).1,
   ((decide_step_halts_iff_key_absent oracleSilent texOk stateInit).2.1).mpr
     rfl⟩

/-- C10: when the last message carries the tool_calls key, even mapping to
the empty list, should_continue answers continue and the execution node
produces zero result messages for the empty list; should_continue answers
end exactly when the key is absent. -/
theorem continue_on_key_presence :
    (∀ (s : AgentState) (m : Message) (tcs : List ToolCall),
        s.messages.getLast? = some m → m.tool_calls = some tcs →
        should_continue s = some "continue") ∧
    (∀ (tex : ToolCall → String) (s : AgentState) (m : Message),
        s.messages.getLast? = some m → m.tool_calls = some [] →
        call_tool tex s =
          some { messages := [], action_needed := s.action_needed }) ∧
    (∀ (s : AgentState) (m : Message),
        s.messages.getLast? = some m →
        (should_continue s = some "end" ↔ m.tool_calls = none)) := by
  refine ⟨?_, ?_, ?_⟩
  · intro s m tcs h1 h2
    simp [should_continue, h1, h2]
  · intro tex s m h1 h2
    rw [call_tool_eq tex s m h1]
    simp [h2]
  · intro s m h1
    constructor
    · intro h
      simp only [should_continue, h1, Option.map_some'] at h
      cases ho : m.tool_calls with
      | none => rfl
      | some tcs => simp [ho] at h
    · intro h
      simp [should_continue, h1, h]

/-- Witness for the C10 theorem on a state whose last message maps
tool_calls to the empty list, and on a state whose last message lacks the
key. -/
theorem continue_on_key_presence_witness :
    should_continue stateEmptyCalls = some "continue" ∧
    call_tool texOk stateEmptyCalls =
      some { messages := [], action_needed := none } ∧
    (should_continue stateInit = some "end" ↔ userMsg.tool_calls = none) :=
  ⟨continue_on_key_presence.1 stateEmptyCalls
      ⟨.assistant, "", some [], none⟩ [] rfl rfl,
   continue_on_key_presence.2.1 texOk stateEmptyCalls
      ⟨.assistant, "", some [], none⟩ rfl rfl,
   continue_on_key_presence.2.2 stateInit userMsg rfl⟩

/-- C2 (amended): for a singleton batch, the execution node returns an
update whose action_needed is ask_for_new_time when the availability
result lacks the substring free (a conflict or an error text) and
propose_slots otherwise, and confirm_booking for event creation; the
assignment of the result text to calendar_check_result happens on the
local copy only, so the persisted calendar_check_result is unchanged by
merging the returned update. -/
theorem call_tool_action_needed_spec
    (tex : ToolCall → String) (s : AgentState) (last : Message)
    (tc : ToolCall) (hl : s.messages.getLast? = some last)
    (hc : last.tool_calls = some [tc]) :
    (tc.name = "check_availability" →
      call_tool tex s = some
        { messages := [toolResultMsg tex tc],
          action_needed := some (if hasFree (tex tc) then "propose_slots"
            else "ask_for_new_time") }) ∧
    (tc.name = "book_meeting" →
      call_tool tex s = some
        { messages := [toolResultMsg tex tc],
          action_needed := some "confirm_booking" }) ∧
    (∀ u, call_tool tex s = some u →
      (apply_tool_update s u).calendar_check_result
        = s.calendar_check_result) := by
  refine ⟨?_, ?_, ?_⟩
  · intro hn
    rw [call_tool_eq tex s last hl]
    simp [hc, fold_tool_output, hn]
  · intro hn
    rw [call_tool_eq tex s last hl]
    simp [hc, fold_tool_output, hn]
  · intro u hu
    simp [apply_tool_update]

set_option maxRecDepth 4000 in
/-- C2 counterexample: on a concrete state requesting one availability
check whose result is the busy text, the merged post-state still has
calendar_check_result unset (the in-node assignment is not part of the
returned update), and the stored action label is the string
ask_for_new_time, not the propose-alternate-slots label of the claim. -/
theorem call_tool_drops_calendar_check_result :
    call_tool texBusy stateCheck = some updBusy ∧
    updBusy.action_needed = some "ask_for_new_time" ∧
    (apply_tool_update stateCheck updBusy).calendar_check_result = none ∧
    some "ask_for_new_time" ≠ some "propose alternate slots" := by
  exact ⟨by decide, rfl, rfl, by decide⟩

/-- Witness for the amended C2 theorem at a concrete availability check
returning the free text. -/
theorem call_tool_action_needed_spec_witness :
    call_tool texFree stateCheck = some
      { messages := [toolResultMsg texFree checkCall],
        action_needed := some (if hasFree (texFree checkCall)
          then "propose_slots" else "ask_for_new_time") } :=
  (call_tool_action_needed_spec texFree stateCheck
    ⟨.assistant, "", some [checkCall], none⟩ checkCall rfl rfl).1 rfl

/-- C4: the update returned by the execution node carries only the result
messages and the action_needed value, so merging it leaves the summary,
start_time, end_time, attendees and calendar_check_result channels of the
persisted state unchanged, both for the node return itself and across a
full execution transition of the workflow. -/
theorem call_tool_update_frame (oracle : List Message → OracleReply)
    (tex : ToolCall → String) (st : AgentState) :
    (∀ u, call_tool tex st = some u →
      (apply_tool_update st u).summary = st.summary ∧
      (apply_tool_update st u).start_time = st.start_time ∧
      (apply_tool_update st u).end_time = st.end_time ∧
      (apply_tool_update st u).attendees = st.attendees ∧
      (apply_tool_update st u).calendar_check_result
        = st.calendar_check_result) ∧
    ((step oracle tex ⟨.executing, st⟩).state.summary = st.summary ∧
      (step oracle tex ⟨.executing, st⟩).state.start_time = st.start_time ∧
      (step oracle tex ⟨.executing, st⟩).state.end_time = st.end_time ∧
      (step oracle tex ⟨.executing, st⟩).state.attendees = st.attendees ∧
      (step oracle tex ⟨.executing, st⟩).state.calendar_check_result
        = st.calendar_check_result) := by
  constructor
  · intro u _
    simp [apply_tool_update]
  · cases hct : call_tool tex st <;> simp [step, hct, apply_tool_update]

/-- Witness for the C4 theorem at a concrete execution of one
availability check. -/
theorem call_tool_update_frame_witness :
    (apply_tool_update stateCheck updOk).calendar_check_result
        = stateCheck.calendar_check_result ∧
    (step oracleSilent texOk ⟨.executing, stateCheck⟩).state.summary
        = stateCheck.summary :=
  ⟨((call_tool_update_frame oracleSilent texOk stateCheck).1 updOk
      (by decide)).2.2.2.2,
   (call_tool_update_frame oracleSilent texOk stateCheck).2.1⟩

/-- C8: when the calendar collaborator fails (an HttpError), both
check_calendar_availability and create_google_calendar_event return a
payload describing the error instead of propagating the exception, so the
error text flows back as an ordinary tool result. -/
theorem tools_surface_collaborator_errors :
    (∀ (svc : String → String → Except String (List BusySlot))
        (st et e : String), svc st et = .error e →
        check_calendar_availability svc st et =
          "An error occurred while checking availability: " ++ e) ∧
    (∀ (ins : GEvent → Except String String)
        (summary st et d : String) (att : Option (List String)) (e : String),
        ins (build_event summary st et d att) = .error e →
        create_google_calendar_event ins summary st et d att =
          "An error occurred while creating the event: " ++ e) := by
  constructor
  · intro svc st et e h
    simp [check_calendar_availability, h]
  · intro ins summary st et d att e h
    simp [create_google_calendar_event, h]

/-- Witness for the C8 theorem at concrete failing collaborators. -/
theorem tools_surface_collaborator_errors_witness :
    check_calendar_availability svcErr "s" "e" =
      "An error occurred while checking availability: HttpError 503" ∧
    create_google_calendar_event insErr "Call" "s" "e" "" none =
      "An error occurred while creating the event: HttpError 403" :=
  ⟨tools_surface_collaborator_errors.1 svcErr "s" "e" "HttpError 503" rfl,
   tools_surface_collaborator_errors.2 insErr "Call" "s" "e" "" none
     "HttpError 403" rfl⟩

/-- C9: the availability check returns the exact free-calendar string when
the backing calendar reports no busy slots in the range, and otherwise the
busy description listing each reported interval. -/
theorem availability_free_and_busy_strings
    (svc : String → String → Except String (List BusySlot)) (st et : String) :
    (svc st et = .ok [] →
      check_calendar_availability svc st et =
        "The calendar is free during this time.") ∧
    (∀ slots, svc st et = .ok slots → slots ≠ [] →
      check_calendar_availability svc st et =
        "The calendar is busy during the following times: " ++
          String.intercalate ", "
            (slots.map (fun slot =>
              "From " ++ slot.start ++ " to " ++ slot.«end»)) ++
          ". Please suggest a different time.") := by
  constructor
  · intro h
    simp [check_calendar_availability, h]
  · intro slots h hne
    simp [check_calendar_availability, h, List.isEmpty_iff, hne]

/-- Witness for the C9 theorem at a free and at a busy concrete service. -/
theorem availability_free_and_busy_strings_witness :
    check_calendar_availability svcFree "s" "e" =
      "The calendar is free during this time." ∧
    check_calendar_availability svcBusy "s" "e" =
      "The calendar is busy during the following times: " ++
        "From 2025-06-29T10:00:00+05:30 to 2025-06-29T11:00:00+05:30" ++
        ". Please suggest a different time." :=
  ⟨(availability_free_and_busy_strings svcFree "s" "e").1 rfl,
   (availability_free_and_busy_strings svcBusy "s" "e").2
     [⟨"2025-06-29T10:00:00+05:30", "2025-06-29T11:00:00+05:30"⟩] rfl
     (by decide)⟩

/-- C3: for any batch of sibling requests, the execution node under the
registry dispatcher returns exactly one result message per request, in
order and correlated by id; a request naming an action absent from the
registry yields a failure-describing payload (the invalid tool message)
while its siblings get their normal payloads, and nothing is raised or
dropped. -/
theorem call_tool_partial_failure
    (registry : List (String × (String → String))) (s : AgentState)
    (last : Message) (tcs : List ToolCall)
    (hl : s.messages.getLast? = some last)
    (hc : last.tool_calls = some tcs) :
    ∃ u : ToolUpdate, call_tool (tool_executor_invoke registry) s = some u ∧
      u.messages.length = tcs.length ∧
      (∀ (j : Nat) (tc : ToolCall), tcs[j]? = some tc →
        u.messages[j]? =
          some (toolResultMsg (tool_executor_invoke registry) tc) ∧
        (registry.lookup tc.name = none →
          (toolResultMsg (tool_executor_invoke registry) tc).content =
            json_dumps (tc.name ++ " is not a valid tool, try one of [" ++
              String.intercalate ", " (registry.map (fun p => p.1)) ++
              "]."))) := by
  refine ⟨_, call_tool_eq _ s last hl, ?_, ?_⟩
  · simp [hc]
  · intro j tc hj
    constructor
    · simp [hc, hj]
    · intro hnone
      simp [toolResultMsg, tool_executor_invoke, hnone]

set_option maxRecDepth 8000 in
/-- Witness for the C3 theorem: a batch of two siblings, the first naming
the unregistered action delete_event, the second a normal availability
check. -/
theorem call_tool_partial_failure_witness :
    call_tool (tool_executor_invoke registryW) stateMixed = some
      { messages :=
          [toolResultMsg (tool_executor_invoke registryW) unknownCall,
           toolResultMsg (tool_executor_invoke registryW) checkCall],
        action_needed := some "propose_slots" } ∧
    (toolResultMsg (tool_executor_invoke registryW) unknownCall).content =
      json_dumps ("delete_event is not a valid tool, try one of " ++
        "[check_availability, book_meeting, get_current_datetime].") := by
  obtain ⟨u, hu, hlen, hspec⟩ :=
    call_tool_partial_failure registryW stateMixed
      ⟨.assistant, "", some [unknownCall, checkCall], none⟩
      [unknownCall, checkCall] rfl rfl
  exact ⟨by decide, (hspec 0 unknownCall rfl).2 rfl⟩

/-- C7 (amended): for every oracle that, once the transcript holds an
assistant message carrying the tool_calls key, replies without the key
(so it makes at most one tool-requesting reply, with no requested actions
afterwards), the workflow reaches END after at most two decision-node
invocations: either the very first decision halts, or the run
decide-execute-decide halts. The claim as frozen phrases the stopping
reply as one with empty requestedActions, which the code honors only when
the key is absent. -/
theorem halts_within_two_decisions
    (oracle : List Message → OracleReply) (tex : ToolCall → String)
    (s0 : AgentState)
    (hstop : ∀ msgs : List Message,
      (∃ m ∈ msgs, m.role = .assistant ∧ m.tool_calls.isSome) →
      (oracle msgs).tool_calls = none) :
    (stepN oracle tex 1 ⟨.deciding, s0⟩).node = .done ∨
    (stepN oracle tex 3 ⟨.deciding, s0⟩).node = .done := by
  cases hm : (oracle s0.messages).tool_calls with
  | none =>
    left
    show (step oracle tex ⟨.deciding, s0⟩).node = .done
    rw [step_deciding]
    simp [hm]
  | some tcs =>
    right
    have h1 : step oracle tex ⟨.deciding, s0⟩ =
        ⟨.executing,
          apply_model_update s0 (mkAssistantMessage (oracle s0.messages))⟩ := by
      rw [step_deciding]
      simp [hm]
    have hlast : (apply_model_update s0
        (mkAssistantMessage (oracle s0.messages))).messages.getLast?
          = some (mkAssistantMessage (oracle s0.messages)) := by
      simp [apply_model_update, List.getLast?_concat]
    show (step oracle tex (step oracle tex
      (step oracle tex ⟨.deciding, s0⟩))).node = .done
    rw [h1, step_executing oracle tex _ _ hlast, step_deciding]
    have hnone : (oracle (apply_tool_update
        (apply_model_update s0 (mkAssistantMessage (oracle s0.messages)))
        { messages :=
            ((mkAssistantMessage (oracle s0.messages)).tool_calls.getD
              []).map (toolResultMsg tex),
          action_needed :=
            (List.foldl (fun s2 tc => fold_tool_output tc.name (tex tc) s2)
              (apply_model_update s0 (mkAssistantMessage (oracle s0.messages)))
              ((mkAssistantMessage (oracle s0.messages)).tool_calls.getD
                [])).action_needed }).messages).tool_calls = none := by
      apply hstop
      refine ⟨mkAssistantMessage (oracle s0.messages), ?_, rfl, ?_⟩
      · simp [apply_tool_update, apply_model_update]
      · simp [mkAssistantMessage, hm]
    simp [hnone]

/-- C7 counterexample: the oracle that always replies with the tool_calls
key mapping to the empty list returns assistant messages with an empty
requestedActions sequence from its very first reply (so it makes no
tool-requesting reply at all), yet the workflow has not halted after two
decision-node invocations, nor after three. -/
theorem empty_calls_oracle_never_halts :
    (oracleEmptyCalls stateInit.messages).tool_calls = some [] ∧
    (stepN oracleEmptyCalls texOk 1 ⟨.deciding, stateInit⟩).node ≠ .done ∧
    (stepN oracleEmptyCalls texOk 2 ⟨.deciding, stateInit⟩).node ≠ .done ∧
    (stepN oracleEmptyCalls texOk 3 ⟨.deciding, stateInit⟩).node ≠ .done ∧
    (stepN oracleEmptyCalls texOk 4 ⟨.deciding, stateInit⟩).node ≠ .done ∧
    (stepN oracleEmptyCalls texOk 5 ⟨.deciding, stateInit⟩).node ≠ .done := by
  exact ⟨rfl, by decide, by decide, by decide, by decide, by decide⟩

/-- Witness for the amended C7 theorem at the concrete silent oracle. -/
theorem halts_within_two_decisions_witness :
    (stepN oracleSilent texOk 1 ⟨.deciding, stateInit⟩).node = .done ∨
    (stepN oracleSilent texOk 3 ⟨.deciding, stateInit⟩).node = .done :=
  halts_within_two_decisions oracleSilent texOk stateInit (fun _ _ => rfl)

theorem noTwoAssistant_iff (ms : List Message) :
    noTwoAssistant ms = true ↔
      List.Chain'
        (fun m1 m2 => ¬(m1.role = .assistant ∧ m2.role = .assistant)) ms := by
  induction ms with
  | nil => simp [noTwoAssistant]
  | cons m1 rest ih =>
    cases rest with
    | nil => simp [noTwoAssistant]
    | cons m2 rest2 =>
      rw [List.chain'_cons, ← ih]
      simp only [noTwoAssistant, Bool.and_eq_true, Bool.not_eq_true',
        Bool.and_eq_false_iff, decide_eq_false_iff_not, decide_eq_true_eq]
      tauto

theorem chain_of_all_tool (block : List Message)
    (h : ∀ m ∈ block, m.role = .tool) :
    List.Chain'
      (fun m1 m2 => ¬(m1.role = .assistant ∧ m2.role = .assistant)) block := by
  induction block with
  | nil => simp
  | cons b rest ih =>
    rw [List.chain'_cons']
    constructor
    · intro y _
      intro hy
      have hb : b.role = .tool := h b (by simp)
      rw [hb] at hy
      exact absurd hy.1 (by simp)
    · exact ih (fun m hm => h m (by simp [hm]))

/-- One workflow transition preserves the alternation invariant, for any
oracle each of whose tool_calls lists is nonempty. -/
theorem cfgNoAdj_step (oracle : List Message → OracleReply)
    (tex : ToolCall → String)
    (hor : ∀ msgs tcs, (oracle msgs).tool_calls = some tcs → tcs ≠ [])
    (c : Config) (h : cfgNoAdj c) : cfgNoAdj (step oracle tex c) := by
  match c with
  | ⟨.deciding, st⟩ =>
    obtain ⟨hchain, hlast⟩ := h
    have hchain2 : noTwoAssistant
        (st.messages ++ [mkAssistantMessage (oracle st.messages)]) = true := by
      rw [noTwoAssistant_iff, List.chain'_append]
      refine ⟨(noTwoAssistant_iff st.messages).mp hchain, by simp, ?_⟩
      intro x hx y hy
      have hxr : x.role ≠ .assistant := hlast x hx
      intro hc
      exact hxr hc.1
    rw [step_deciding]
    by_cases hm : (oracle st.messages).tool_calls.isSome
    · simp only [if_pos hm]
      obtain ⟨tcs, htcs⟩ := Option.isSome_iff_exists.mp hm
      exact ⟨hchain2,
        mkAssistantMessage (oracle st.messages), tcs,
        by simp [apply_model_update, List.getLast?_concat],
        rfl, htcs, hor st.messages tcs htcs⟩
    · simp only [if_neg hm]
      exact hchain2
  | ⟨.executing, st⟩ =>
    obtain ⟨hchain, l, tcs, hlast, hrole, hcalls, hne⟩ := h
    rw [step_executing oracle tex st l hlast]
    have hblock : ∀ m ∈ (l.tool_calls.getD []).map (toolResultMsg tex),
        m.role = .tool := by
      intro m hm
      obtain ⟨tc, _, rfl⟩ := List.mem_map.mp hm
      rfl
    have hbne : (l.tool_calls.getD []).map (toolResultMsg tex) ≠ [] := by
      rw [hcalls]
      simp [hne]
    constructor
    · show noTwoAssistant
        (st.messages ++ (l.tool_calls.getD []).map (toolResultMsg tex)) = true
      rw [noTwoAssistant_iff, List.chain'_append]
      refine ⟨(noTwoAssistant_iff st.messages).mp hchain,
        chain_of_all_tool _ hblock, ?_⟩
      intro x hx y hy
      have hyr : y.role = .tool :=
        hblock y (List.mem_of_mem_head? hy)
      intro hc
      rw [hyr] at hc
      exact absurd hc.2 (by simp)
    · intro l2 hl2
      have hl3 : (st.messages ++
          (l.tool_calls.getD []).map (toolResultMsg tex)).getLast?
            = some l2 := hl2
      rw [List.getLast?_append] at hl3
      cases hgb : ((l.tool_calls.getD []).map (toolResultMsg tex)).getLast? with
      | none =>
        exact absurd (List.getLast?_eq_none_iff.mp hgb) hbne
      | some r =>
        rw [hgb] at hl3
        have hr : r.role = .tool :=
          hblock r (List.mem_of_getLast?_eq_some hgb)
        have hrl : r = l2 := by
          simpa using hl3
        rw [← hrl, hr]
        simp
  | ⟨.done, st⟩ => exact h

/-- Iterated transitions preserve the alternation invariant. -/
theorem cfgNoAdj_stepN (oracle : List Message → OracleReply)
    (tex : ToolCall → String)
    (hor : ∀ msgs tcs, (oracle msgs).tool_calls = some tcs → tcs ≠ [])
    (n : Nat) : ∀ c : Config, cfgNoAdj c → cfgNoAdj (stepN oracle tex n c) := by
  induction n with
  | zero => intro c h; exact h
  | succ n ih => intro c h; exact ih _ (cfgNoAdj_step oracle tex hor c h)

/-- The alternation invariant yields the adjacency-freedom of the
transcript at every node. -/
theorem cfgNoAdj_chain (c : Config) (h : cfgNoAdj c) :
    noTwoAssistant c.state.messages = true := by
  match c with
  | ⟨.deciding, st⟩ => exact h.1
  | ⟨.executing, st⟩ => exact h.1
  | ⟨.done, st⟩ => exact h

/-- C6 (amended): the node-level alternation is unconditional — the
execution node is only ever entered from the decision node, so no two
consecutive execution steps occur — and in every run whose initial
transcript is adjacency-free and does not end in an assistant message,
and whose oracle never returns the tool_calls key with an empty list, the
transcript never holds two adjacent assistant messages. The claim as
frozen asserts the message-level guarantee for every run; it fails when a
reply carries the key with an empty list, since the execution step then
appends no result messages. -/
theorem strict_alternation (oracle : List Message → OracleReply)
    (tex : ToolCall → String) (s0 : AgentState)
    (h0 : noTwoAssistant s0.messages = true)
    (hlast0 : ∀ l, s0.messages.getLast? = some l → l.role ≠ .assistant)
    (hor : ∀ msgs tcs, (oracle msgs).tool_calls = some tcs → tcs ≠ []) :
    (∀ c : Config, (step oracle tex c).node = .executing →
      c.node = .deciding) ∧
    (∀ n, noTwoAssistant
      ((stepN oracle tex n ⟨.deciding, s0⟩).state.messages) = true) := by
  constructor
  · intro c hc
    match c with
    | ⟨.deciding, st⟩ => rfl
    | ⟨.executing, st⟩ =>
      cases hct : call_tool tex st <;> simp [step, hct] at hc
    | ⟨.done, st⟩ => simp [step] at hc
  · intro n
    exact cfgNoAdj_chain _
      (cfgNoAdj_stepN oracle tex hor n ⟨.deciding, s0⟩ ⟨h0, hlast0⟩)

/-- C6 counterexample: a run with the empty-list oracle: the execution
step appends no result messages, so after three transitions the
transcript holds two adjacent assistant messages with no intervening
result messages, refuting the message-level alternation guarantee as
stated. -/
theorem adjacent_assistant_messages_run :
    (stepN oracleEmptyCalls texOk 3 ⟨.deciding, stateInit⟩).state.messages =
      [userMsg, mkAssistantMessage ⟨"", some []⟩,
        mkAssistantMessage ⟨"", some []⟩] ∧
    noTwoAssistant
      ((stepN oracleEmptyCalls texOk 3
        ⟨.deciding, stateInit⟩).state.messages) = false := by
  exact ⟨rfl, rfl⟩

/-- Witness for the amended C6 theorem on a concrete run that books one
availability check through the stubbed registry. -/
theorem strict_alternation_witness :
    (⟨.deciding, stateInit⟩ : Config).node = .deciding ∧
    noTwoAssistant
      ((stepN oracleCheck (tool_executor_invoke registryW) 4
        ⟨.deciding, stateInit⟩).state.messages) = true := by
  have hlast0 : ∀ l, stateInit.messages.getLast? = some l →
      l.role ≠ .assistant := by
    intro l hl
    have hl2 : some userMsg = some l := hl
    injection hl2 with hl3
    rw [← hl3]
    simp [userMsg]
  have hor : ∀ msgs tcs, (oracleCheck msgs).tool_calls = some tcs →
      tcs ≠ [] := by
    intro msgs tcs hsome
    have hs2 : some [checkCall] = some tcs := hsome
    injection hs2 with hs3
    rw [← hs3]
    simp
  refine ⟨(strict_alternation oracleCheck (tool_executor_invoke registryW)
      stateInit (by decide) hlast0 hor).1 ⟨.deciding, stateInit⟩ (by decide),
    (strict_alternation oracleCheck (tool_executor_invoke registryW)
      stateInit (by decide) hlast0 hor).2 4⟩

theorem checkResult_iff (ms : List Message) (k : Nat) (tc : ToolCall) :
    checkResult ms k tc = true ↔
      ∃ r, ms[k]? = some r ∧ r.role = .tool ∧
        r.tool_call_id = some tc.id := by
  unfold checkResult
  split
  next r heq => simp [heq, Bool.and_eq_true]
  next heq => simp [heq]

theorem msgObligation_iff (ms : List Message) (i : Nat) :
    msgObligation ms i = true ↔ AnsweredAt ms i := by
  unfold msgObligation AnsweredAt
  split
  next m heq =>
    split
    next tcs hrole hcalls =>
      rw [List.all_eq_true]
      constructor
      · intro hall m2 hm2 _ tcs2 htcs2 j tc hj
        have hm2e : m2 = m := by
          rw [heq] at hm2
          exact (Option.some_inj.mp hm2).symm
        subst hm2e
        rw [hcalls] at htcs2
        have htcse : tcs = tcs2 := Option.some_inj.mp htcs2
        subst htcse
        have hjlt : j < tcs.length := (List.getElem?_eq_some_iff.mp hj).1
        have hj2 := hall j (List.mem_range.mpr hjlt)
        simp only [hj] at hj2
        exact (checkResult_iff ms (i + 1 + j) tc).mp hj2
      · intro hfa j hjmem
        cases htc : tcs[j]? with
        | none => simp
        | some tc =>
          simp only
          exact (checkResult_iff ms (i + 1 + j) tc).mpr
            (hfa m heq hrole tcs hcalls j tc htc)
    next hno =>
      constructor
      · intro _ m2 hm2 hrole2 tcs2 htcs2 j tc hj
        have hm2e : m2 = m := by
          rw [heq] at hm2
          exact (Option.some_inj.mp hm2).symm
        subst hm2e
        exact absurd htcs2 (hno tcs2 hrole2)
      · intro _
        rfl
  next heq =>
    constructor
    · intro _ m hm
      rw [heq] at hm
      exact absurd hm (by simp)
    · intro _
      rfl

theorem isAnswered_iff (ms : List Message) :
    isAnswered ms = true ↔ ∀ i, AnsweredAt ms i := by
  unfold isAnswered
  rw [List.all_eq_true]
  constructor
  · intro h i
    by_cases hi : i < ms.length
    · exact (msgObligation_iff ms i).mp (h i (List.mem_range.mpr hi))
    · intro m hm
      rw [List.getElem?_eq_none (Nat.le_of_not_lt hi)] at hm
      exact absurd hm (by simp)
  · intro h i _
    exact (msgObligation_iff ms i).mpr (h i)

/-- Transfer of one answered position across a transcript extension. -/
theorem answeredAt_append_left (ms ys : List Message) (i : Nat)
    (hi : i < ms.length) (h : AnsweredAt ms i) : AnsweredAt (ms ++ ys) i := by
  intro m hm hrole tcs htcs j tc hj
  rw [List.getElem?_append_left hi] at hm
  obtain ⟨r, hr, h1, h2⟩ := h m hm hrole tcs htcs j tc hj
  have hlt : i + 1 + j < ms.length := (List.getElem?_eq_some_iff.mp hr).1
  refine ⟨r, ?_, h1, h2⟩
  rw [List.getElem?_append_left hlt]
  exact hr

/-- Appending a message with no requested actions preserves the
answered-requests property. -/
theorem isAnswered_append_nocalls (ms : List Message) (m : Message)
    (h : isAnswered ms = true)
    (hm : m.tool_calls = none ∨ m.tool_calls = some []) :
    isAnswered (ms ++ [m]) = true := by
  rw [isAnswered_iff] at h ⊢
  intro i
  rcases Nat.lt_trichotomy i ms.length with hi | hi | hi
  · exact answeredAt_append_left ms [m] i hi (h i)
  · subst hi
    intro m2 hm2 hrole tcs htcs j tc hj
    rw [List.getElem?_concat_length] at hm2
    have hm2e : m2 = m := (Option.some_inj.mp hm2).symm
    subst hm2e
    cases hm with
    | inl hnone =>
      rw [hnone] at htcs
      exact absurd htcs (by simp)
    | inr hnil =>
      rw [hnil] at htcs
      have : tcs = [] := (Option.some_inj.mp htcs).symm
      subst this
      exact absurd hj (by simp)
  · intro m2 hm2 hrole tcs htcs j tc hj
    have hlen : (ms ++ [m]).length ≤ i := by
      simp only [List.length_append, List.length_cons, List.length_nil]
      omega
    rw [List.getElem?_eq_none hlen] at hm2
    exact absurd hm2 (by simp)

/-- Appending a pending assistant message together with its full result
block preserves the answered-requests property. -/
theorem isAnswered_append_block (pre : List Message) (a : Message)
    (tex : ToolCall → String) (tcs : List ToolCall)
    (h : isAnswered pre = true) (hcalls : a.tool_calls = some tcs) :
    isAnswered ((pre ++ [a]) ++ tcs.map (toolResultMsg tex)) = true := by
  rw [isAnswered_iff] at h ⊢
  intro i
  rcases Nat.lt_trichotomy i pre.length with hi | hi | hi
  · have h2 := answeredAt_append_left pre ([a] ++ tcs.map (toolResultMsg tex))
      i hi (h i)
    rw [← List.append_assoc] at h2
    exact h2
  · subst hi
    intro m hm hrole tcs2 htcs j tc hj
    have hpa : ((pre ++ [a]) ++ tcs.map (toolResultMsg tex))[pre.length]?
        = some a := by
      rw [List.getElem?_append_left (by simp), List.getElem?_concat_length]
    rw [hpa] at hm
    obtain rfl : a = m := Option.some_inj.mp hm
    rw [hcalls] at htcs
    have htcse : tcs = tcs2 := Option.some_inj.mp htcs
    subst htcse
    refine ⟨toolResultMsg tex tc, ?_, rfl, rfl⟩
    have hlen : (pre ++ [a]).length ≤ pre.length + 1 + j := by
      simp only [List.length_append, List.length_cons, List.length_nil]
      omega
    rw [List.getElem?_append_right hlen, List.getElem?_map]
    have hidx : pre.length + 1 + j - (pre ++ [a]).length = j := by
      simp only [List.length_append, List.length_cons, List.length_nil]
      omega
    rw [hidx, hj]
    rfl
  · intro m hm hrole tcs2 htcs j tc hj
    exfalso
    have hlen : (pre ++ [a]).length ≤ i := by
      simp only [List.length_append, List.length_cons, List.length_nil]
      omega
    rw [List.getElem?_append_right hlen, List.getElem?_map] at hm
    cases hmm : tcs[i - (pre ++ [a]).length]? with
    | none =>
      rw [hmm] at hm
      exact absurd hm (by simp)
    | some tc2 =>
      rw [hmm] at hm
      have hm2 : toolResultMsg tex tc2 = m := Option.some_inj.mp hm
      rw [← hm2] at hrole
      exact absurd hrole (by simp [toolResultMsg])

/-- One workflow transition preserves the answered-requests invariant. -/
theorem cfgAnswered_step (oracle : List Message → OracleReply)
    (tex : ToolCall → String) (c : Config) (h : cfgAnswered c) :
    cfgAnswered (step oracle tex c) := by
  match c with
  | ⟨.deciding, st⟩ =>
    have hA : isAnswered st.messages = true := h
    rw [step_deciding]
    by_cases hm : (oracle st.messages).tool_calls.isSome
    · simp only [if_pos hm]
      exact ⟨st.messages, mkAssistantMessage (oracle st.messages), rfl,
        hA, rfl, hm⟩
    · simp only [if_neg hm]
      show isAnswered (st.messages ++ [mkAssistantMessage
        (oracle st.messages)]) = true
      refine isAnswered_append_nocalls st.messages _ hA (Or.inl ?_)
      exact Option.not_isSome_iff_eq_none.mp hm
  | ⟨.executing, st⟩ =>
    obtain ⟨pre, a, hmsg, hpre, hrole, hsome⟩ := h
    obtain ⟨tcs, htcs⟩ := Option.isSome_iff_exists.mp hsome
    have hlast : st.messages.getLast? = some a := by
      rw [hmsg]
      exact List.getLast?_concat pre
    rw [step_executing oracle tex st a hlast]
    show isAnswered (st.messages ++
      (a.tool_calls.getD []).map (toolResultMsg tex)) = true
    rw [hmsg, htcs]
    exact isAnswered_append_block pre a tex tcs hpre htcs
  | ⟨.done, st⟩ => exact h

/-- Iterated transitions preserve the answered-requests invariant. -/
theorem cfgAnswered_stepN (oracle : List Message → OracleReply)
    (tex : ToolCall → String) (n : Nat) :
    ∀ c : Config, cfgAnswered c → cfgAnswered (stepN oracle tex n c) := by
  induction n with
  | zero => intro c h; exact h
  | succ n ih => intro c h; exact ih _ (cfgAnswered_step oracle tex c h)

/-- At END (and at the decision node) the invariant is the plain
answered-requests property of the whole transcript. -/
theorem cfgAnswered_done (c : Config) (hd : c.node = .done)
    (h : cfgAnswered c) : isAnswered c.state.messages = true := by
  match c with
  | ⟨.deciding, st⟩ => exact h
  | ⟨.executing, st⟩ => exact absurd hd (by simp)
  | ⟨.done, st⟩ => exact h

/-- C5: in every run whose initial transcript satisfies the
answered-requests property (in particular a fresh turn holding only user
and answered messages), every state in which control returns to the
caller (END) satisfies it too: each assistant message carrying requested
actions is immediately followed by exactly one result message per
request, correlated by id and in request order. -/
theorem returned_state_requests_answered
    (oracle : List Message → OracleReply) (tex : ToolCall → String)
    (s0 : AgentState) (h0 : isAnswered s0.messages = true) (n : Nat)
    (hdone : (stepN oracle tex n ⟨.deciding, s0⟩).node = .done) :
    isAnswered ((stepN oracle tex n ⟨.deciding, s0⟩).state.messages)
      = true := by
  exact cfgAnswered_done _ hdone
    (cfgAnswered_stepN oracle tex n ⟨.deciding, s0⟩ h0)

/-- Witness for the C5 theorem on a concrete run that requests one
availability check against the stubbed registry and then halts. -/
theorem returned_state_requests_answered_witness :
    isAnswered ((stepN oracleSilent texOk 1
      ⟨.deciding, stateInit⟩).state.messages) = true :=
  returned_state_requests_answered oracleSilent texOk stateInit (by decide)
    1 rfl

end CalendarAgent
